import Mathlib

/-!
Shallow embedding of the GitGauge candidate-screening pipeline
(`app/integrations/github_client.py`, `app/integrations/ai_client.py`,
`app/workers/tasks.py`) together with proofs about the frozen claims.

Python strings are modelled as Lean `String`; `str.lower()` is modelled
character-wise with `Char.toLower` (the repository only matches ASCII
skill tokens), and `needle in hay` is modelled by the substring test
`strContains`.  Machine integers are `Nat`/`Int`; Python float division
(used only for average thresholds) is modelled exactly with `ℚ`.
-/

/-- Character-wise lowercase, modelling Python `str.lower()` on the ASCII
strings the scorer compares. -/
def lowerStr (s : String) : String := ⟨s.data.map Char.toLower⟩

/-- Test whether `needle` occurs at the head of `hay` (character lists). -/
def startsWithL : List Char → List Char → Bool
  | _, [] => true
  | [], _ :: _ => false
  | a :: hs, b :: ns => a == b && startsWithL hs ns

/-- Test whether `needle` occurs somewhere inside `hay` (character lists),
modelling Python `needle in hay`. -/
def containsL : List Char → List Char → Bool
  | hay, needle =>
    if startsWithL hay needle then true
    else
      match hay with
      | [] => false
      | _ :: t => containsL t needle

/-- Substring test on strings, modelling Python `needle in hay`. -/
def strContains (hay needle : String) : Bool := containsL hay.data needle.data

/-! ## Repository Scorer (`github_client.search_repositories_by_skills`) -/

/-- A repository as seen by the scorer after the per-repo language and
README fetches: the raw GitHub item fields used by
`search_repositories_by_skills` plus the fetched `languages` keys and
optional README text.  `description` is `Option` because the GitHub API
returns `null` descriptions (Python `None`). -/
structure RepoInfo where
  id : Nat
  name : String
  full_name : String
  description : Option String
  html_url : String
  clone_url : String
  languages : List String
  stars : Nat
  forks : Nat
  size : Nat
  updated_at : String
  created_at : String
  readme : Option String
deriving Repr, DecidableEq

/-- Language category test: `skill_lower in [lang.lower() for lang in languages.keys()]`. -/
def langHit (repo : RepoInfo) (skillLower : String) : Bool :=
  (repo.languages.map lowerStr).contains skillLower

/-- Repo-name category test: `skill_lower in repo["name"].lower()`. -/
def nameHit (repo : RepoInfo) (skillLower : String) : Bool :=
  strContains (lowerStr repo.name) skillLower

/-- Description category test:
`repo.get("description") and skill_lower in repo["description"].lower()`
(`None` and the empty string are falsy). -/
def descHit (repo : RepoInfo) (skillLower : String) : Bool :=
  match repo.description with
  | none => false
  | some d => d != "" && strContains (lowerStr d) skillLower

/-- The `readme_text` local: `readme.lower() if readme else ""`. -/
def readmeTextOf (repo : RepoInfo) : String :=
  match repo.readme with
  | none => ""
  | some r => lowerStr r

/-- README category test: `readme_text and skill_lower in readme_text`. -/
def readmeHit (repo : RepoInfo) (skillLower : String) : Bool :=
  readmeTextOf repo != "" && strContains (readmeTextOf repo) skillLower

/-- Append `skill` to `matched` unless already present, modelling
`if skill not in matched_skills: matched_skills.append(skill)`. -/
def addMatched (matched : List String) (skill : String) : List String :=
  if matched.contains skill then matched else matched ++ [skill]

/-- One iteration of the scorer's `for skill in skills` loop body: the
accumulator is the pair (`score`, `matched_skills`). -/
def scoreStep (repo : RepoInfo) (acc : Nat × List String) (skill : String) :
    Nat × List String :=
  let sl := lowerStr skill
  let acc := if langHit repo sl then (acc.1 + 3, acc.2 ++ [skill]) else acc
  let acc := if nameHit repo sl then (acc.1 + 2, addMatched acc.2 skill) else acc
  let acc := if descHit repo sl then (acc.1 + 1, addMatched acc.2 skill) else acc
  let acc := if readmeHit repo sl then (acc.1 + 1, addMatched acc.2 skill) else acc
  acc

/-- The scorer's per-repository loop over all skills, starting from
`score = 0`, `matched_skills = []`. -/
def repoScore (repo : RepoInfo) (skills : List String) : Nat × List String :=
  skills.foldl (scoreStep repo) (0, [])

/-- Per-skill score contribution, the closed form of one loop iteration:
+3 language, +2 name, +1 description, +1 README, each at most once. -/
def skillScore (repo : RepoInfo) (skill : String) : Nat :=
  (if langHit repo (lowerStr skill) then 3 else 0) +
  (if nameHit repo (lowerStr skill) then 2 else 0) +
  (if descHit repo (lowerStr skill) then 1 else 0) +
  (if readmeHit repo (lowerStr skill) then 1 else 0)

/-- The `repo_data` dict built by `search_repositories_by_skills`. -/
structure ScoredRepo where
  id : Nat
  name : String
  full_name : String
  description : String
  html_url : String
  clone_url : String
  languages : List String
  stars : Nat
  forks : Nat
  size : Nat
  updated_at : String
  created_at : String
  score : Nat
  matched_skills : List String
  readme_preview : String
deriving Repr, DecidableEq

/-- Build the `repo_data` dict for one repository.  (Python stores the raw
nullable description via `repo.get("description", "")`; downstream
consumers treat it as text, so a `null` is modelled as `""`.) -/
def mkScored (skills : List String) (repo : RepoInfo) : ScoredRepo :=
  { id := repo.id
    name := repo.name
    full_name := repo.full_name
    description := repo.description.getD ""
    html_url := repo.html_url
    clone_url := repo.clone_url
    languages := repo.languages
    stars := repo.stars
    forks := repo.forks
    size := repo.size
    updated_at := repo.updated_at
    created_at := repo.created_at
    score := (repoScore repo skills).1
    matched_skills := (repoScore repo skills).2
    readme_preview :=
      match repo.readme with
      | none => ""
      | some r => ⟨r.data.take 500⟩ }

/-- Descending-by-score comparison used by `scored_repos.sort(key=..., reverse=True)`. -/
def scoreGe (a b : ScoredRepo) : Prop := b.score ≤ a.score

instance : DecidableRel scoreGe := fun a b => Nat.decLe b.score a.score

instance : IsTotal ScoredRepo scoreGe :=
  ⟨fun a b => Nat.le_total b.score a.score⟩

instance : IsTrans ScoredRepo scoreGe :=
  ⟨fun _ _ _ hab hbc => Nat.le_trans hbc hab⟩

/-- The scorer pipeline on already-fetched repositories: score every repo,
sort descending by score (Python `list.sort` is a stable sort, modelled by
the stable `insertionSort`), drop zero scores, truncate to `limit`.
Pagination/fetching is modelled separately (`getUserRepositoriesPages`). -/
def searchRepositoriesBySkills (repos : List RepoInfo) (skills : List String)
    (limit : Nat) : List ScoredRepo :=
  if repos.isEmpty then []
  else
    let scored := repos.map (mkScored skills)
    let sorted := List.insertionSort scoreGe scored
    (sorted.filter (fun r => 0 < r.score)).take limit

/-! ## Pagination (`github_client.get_user_repositories`) -/

/-- The pagination loop of `get_user_repositories`: `host` is the upstream
page oracle, `perPage` the requested page size.  Returns the accumulated
items and the number of pages fetched.  The loop stops on an empty page, a
short page, or once the hard ceiling `page > 20` is reached after the
increment. -/
def getUserRepositoriesGo {α : Type} (host : Nat → List α) (perPage : Nat)
    (page : Nat) (acc : List α) (pages : Nat) : List α × Nat :=
  if (host page).isEmpty then (acc, pages + 1)
  else if (host page).length < perPage then (acc ++ host page, pages + 1)
  else if h : 20 < page + 1 then (acc ++ host page, pages + 1)
  else getUserRepositoriesGo host perPage (page + 1) (acc ++ host page) (pages + 1)
termination_by 21 - page
decreasing_by omega

/-- Fetch all pages starting from page 1, as `get_user_repositories` does. -/
def getUserRepositoriesPages {α : Type} (host : Nat → List α) (perPage : Nat) :
    List α × Nat :=
  getUserRepositoriesGo host perPage 1 [] 0

/-! ## Report schema (`app/api/schemas/jobs.py` shapes, as used by the
synthesizer dicts in `ai_client.py` / `tasks.py`) -/

/-- One `skills_match` entry.  `strength` is `Int` because on the primary
path it is whatever number the model returned. -/
structure SkillEntry where
  skill : String
  strength : Int
  evidence_snippets : List String
  repos_referenced : List String
deriving Repr, DecidableEq

/-- The `code_quality` sub-dict. -/
structure CodeQuality where
  style : String
  readability : String
  testing : String
  documentation : String
  security : String
deriving Repr, DecidableEq

/-- The `commit_habits` sub-dict. -/
structure CommitHabits where
  frequency : String
  message_quality : String
  collaboration_signals : String
deriving Repr, DecidableEq

/-- One `interview_questions` entry. -/
structure InterviewQuestion where
  question : String
  rationale : String
  difficulty : String
deriving Repr, DecidableEq

/-- One `risk_flags` entry. -/
structure RiskFlag where
  flag : String
  description : String
  severity : String
deriving Repr, DecidableEq

/-- The `overall_assessment` sub-dict. -/
structure OverallAssessment where
  decision_hint : String
  justification : String
deriving Repr, DecidableEq

/-- The `candidate` sub-dict. -/
structure Candidate where
  github_username : String
  summary_of_work : String
  notable_repos : List String
deriving Repr, DecidableEq

/-- The dict returned by `analyze_repositories` / `analyze_candidate` /
the two heuristic fallbacks.  `summary` and `candidate` are `Option`
because the `ai_client` dicts carry `candidate` but no `summary` (the
tasks layer adds it), while the canned empty-repos dict carries `summary`
but no `candidate`. -/
structure AnalysisResult where
  summary : Option String
  candidate : Option Candidate
  skills_match : List SkillEntry
  code_quality : CodeQuality
  commit_habits : CommitHabits
  interview_questions : List InterviewQuestion
  risk_flags : List RiskFlag
  overall_assessment : OverallAssessment
deriving Repr, DecidableEq

/-- The `analysis_report` dict assembled by `process_analysis_job`. -/
structure AnalysisReport where
  candidate : Candidate
  skills_match : List SkillEntry
  code_quality : CodeQuality
  commit_habits : CommitHabits
  interview_questions : List InterviewQuestion
  risk_flags : List RiskFlag
  overall_assessment : OverallAssessment
deriving Repr, DecidableEq

/-- The model's parsed JSON reply: every top-level field may be absent. -/
structure ModelAnalysis where
  candidate : Option Candidate
  skills_match : Option (List SkillEntry)
  code_quality : Option CodeQuality
  commit_habits : Option CommitHabits
  interview_questions : Option (List InterviewQuestion)
  risk_flags : Option (List RiskFlag)
  overall_assessment : Option OverallAssessment
deriving Repr, DecidableEq

/-- The `github_data` dict built by `analyze_repositories`.  (The
`languages` key, a Python `list(set(...))` with nondeterministic order, is
never read downstream and is omitted.) -/
structure GithubData where
  repos : List ScoredRepo
  username : String
  total_repos : Nat
  total_stars : Nat
deriving Repr, DecidableEq

/-- Build `github_data` from the ranked repositories. -/
def mkGithubData (repos : List ScoredRepo) (username : String) : GithubData :=
  { repos := repos
    username := username
    total_repos := repos.length
    total_stars := (repos.map (·.stars)).sum }

/-! ## AI client (`ai_client.py`) -/

/-- Default `candidate` used by `_validate_and_format_response` and (with
the same text) produced by `_generate_basic_analysis`. -/
def defaultCandidate (ghd : GithubData) (username : String) : Candidate :=
  { github_username := username
    summary_of_work := "Developer with " ++ toString ghd.repos.length ++ " repositories"
    notable_repos := (ghd.repos.take 3).map (·.full_name) }

/-- The `skills_match` normalisation in `_validate_and_format_response`:
the model's entries are kept verbatim; a placeholder entry is appended for
every requested skill absent from the model's list (the `existing_skills`
set is computed once, before the loop). -/
def validateSkillsMatch (modelSm : List SkillEntry) (skills : List String) :
    List SkillEntry :=
  let existing := modelSm.map (·.skill)
  modelSm ++ (skills.filter (fun s => !(existing.contains s))).map
    (fun s => { skill := s, strength := 1,
                evidence_snippets := ["No evidence found"],
                repos_referenced := [] })

/-- The `_validate_and_format_response` normalisation: substitute the
documented default for each absent top-level field, append placeholder
`skills_match` entries, and synthesize one interview question if none. -/
def validateAndFormatResponse (analysis : ModelAnalysis) (ghd : GithubData)
    (skills : List String) (username : String) : AnalysisResult :=
  let iq0 := analysis.interview_questions.getD []
  { summary := none
    candidate := some (analysis.candidate.getD (defaultCandidate ghd username))
    skills_match := validateSkillsMatch (analysis.skills_match.getD []) skills
    code_quality := analysis.code_quality.getD
      ⟨"Adequate", "Medium", "Adequate", "Adequate", "Adequate"⟩
    commit_habits := analysis.commit_habits.getD ⟨"Regular", "Adequate", "Moderate"⟩
    interview_questions :=
      if iq0.isEmpty then
        [⟨"Can you walk me through your experience with " ++
            (skills.head?.getD "programming") ++ "?",
          "Assess technical experience", "intermediate"⟩]
      else iq0
    risk_flags := analysis.risk_flags.getD []
    overall_assessment := analysis.overall_assessment.getD
      ⟨"maybe", "Insufficient data for assessment"⟩ }

/-- One `for repo in repos` iteration of `_generate_basic_analysis`'s
per-skill loop (note the `elif`: the name check only runs when the
language check missed).  Accumulator: (strength, evidence, repos_ref). -/
def basicStep (skill : String) (acc : Nat × List String × List String)
    (repo : ScoredRepo) : Nat × List String × List String :=
  let (st, ev, rf) := acc
  if (repo.languages.map lowerStr).contains (lowerStr skill) then
    (st + 2, ev ++ ["Found " ++ skill ++ " code in " ++ repo.name],
     rf ++ [repo.full_name])
  else if strContains (lowerStr repo.name) (lowerStr skill) then
    (st + 1, ev ++ ["Repository name suggests " ++ skill ++ " expertise"],
     if rf.contains repo.full_name then rf else rf ++ [repo.full_name])
  else (st, ev, rf)

/-- The per-skill entry built by `_generate_basic_analysis`. -/
def basicSkillEntry (repos : List ScoredRepo) (skill : String) : SkillEntry :=
  let stats := repos.foldl (basicStep skill) (0, [], [])
  { skill := skill
    strength := ((min 5 (max 1 stats.1) : Nat) : Int)
    evidence_snippets := stats.2.1.take 3
    repos_referenced := stats.2.2.take 3 }

/-- The `_generate_basic_analysis` fallback used when the model client is
unavailable or any primary-path step raised inside `analyze_candidate`. -/
def generateBasicAnalysis (ghd : GithubData) (skills : List String)
    (username : String) : AnalysisResult :=
  { summary := none
    candidate := some (defaultCandidate ghd username)
    skills_match := skills.map (basicSkillEntry ghd.repos)
    code_quality := ⟨"Adequate", "Medium", "Adequate", "Adequate", "Adequate"⟩
    commit_habits := ⟨"Regular", "Adequate", "Moderate"⟩
    interview_questions :=
      [⟨"Can you explain your experience with " ++
          (skills.head?.getD "programming") ++ "?",
        "Assess technical background", "intermediate"⟩]
    risk_flags := []
    overall_assessment :=
      ⟨"maybe", "Basic analysis completed, AI analysis recommended for detailed assessment"⟩ }

/-- Outcome of the generative machinery as seen by `analyze_candidate`:
the client may be absent (`unavailable`), the prompt build / API call /
JSON parse / validation may raise (`failure`), or a parsed reply is
available (`success`). -/
inductive ModelOracle where
  | unavailable : ModelOracle
  | failure : ModelOracle
  | success : ModelAnalysis → ModelOracle
deriving Repr, DecidableEq

/-- The `analyze_candidate` boundary: every primary-path failure is caught
and answered with `_generate_basic_analysis`; it never raises. -/
def analyzeCandidate (oracle : ModelOracle) (ghd : GithubData)
    (skills : List String) (username : String) : AnalysisResult :=
  match oracle with
  | .unavailable => generateBasicAnalysis ghd skills username
  | .failure => generateBasicAnalysis ghd skills username
  | .success a => validateAndFormatResponse a ghd skills username

/-! ## Tasks layer (`app/workers/tasks.py`) -/

/-- The canned dict returned by `analyze_repositories` when the ranked
repository list is empty (it bypasses the model entirely). -/
def noMatchAnalysis (username : String) : AnalysisResult :=
  { summary := some ("No relevant repositories found for " ++ username)
    candidate := none
    skills_match := []
    code_quality := ⟨"Unknown", "Unknown", "Unknown", "Unknown", "Unknown"⟩
    commit_habits := ⟨"Unknown", "Unknown", "Unknown"⟩
    interview_questions := []
    risk_flags := []
    overall_assessment := ⟨"no", "No relevant repositories found"⟩ }

/-- One `for repo in repos` iteration of `_basic_analysis_fallback`'s
per-skill loop (three independent category checks: language +2, name +1,
description +1; no README check).  Accumulator:
(strength, evidence_snippets, repos_referenced). -/
def fbStep (skill : String) (acc : Nat × List String × List String)
    (repo : ScoredRepo) : Nat × List String × List String :=
  let acc :=
    if (repo.languages.map lowerStr).contains (lowerStr skill) then
      (acc.1 + 2, acc.2.1 ++ ["Found " ++ skill ++ " code in " ++ repo.name],
       acc.2.2 ++ [repo.full_name])
    else acc
  let acc :=
    if strContains (lowerStr repo.name) (lowerStr skill) then
      (acc.1 + 1,
       acc.2.1 ++ ["Repository name suggests " ++ skill ++ " expertise: " ++ repo.name],
       if acc.2.2.contains repo.full_name then acc.2.2 else acc.2.2 ++ [repo.full_name])
    else acc
  let acc :=
    if strContains (lowerStr repo.description) (lowerStr skill) then
      (acc.1 + 1,
       acc.2.1 ++ ["Repository description mentions " ++ skill ++ ": " ++ repo.description],
       if acc.2.2.contains repo.full_name then acc.2.2 else acc.2.2 ++ [repo.full_name])
    else acc
  acc

/-- The raw per-skill statistics accumulated by `_basic_analysis_fallback`. -/
def fbStats (repos : List ScoredRepo) (skill : String) :
    Nat × List String × List String :=
  repos.foldl (fbStep skill) (0, [], [])

/-- The per-skill `skills_match` entry built by `_basic_analysis_fallback`:
strength is `min(5, max(1, raw))`, evidence and referenced repos are
truncated to 3. -/
def fbSkillEntry (repos : List ScoredRepo) (skill : String) : SkillEntry :=
  { skill := skill
    strength := ((min 5 (max 1 (fbStats repos skill).1) : Nat) : Int)
    evidence_snippets := (fbStats repos skill).2.1.take 3
    repos_referenced := (fbStats repos skill).2.2.take 3 }

/-- Average strength over a `skills_match` list, `0` when empty, with
Python's float division modelled exactly on `ℚ`. -/
def fbAvgStrength (sm : List SkillEntry) : ℚ :=
  let total : Int := (sm.map (·.strength)).sum
  if sm.isEmpty then 0 else (total : ℚ) / (sm.length : ℚ)

/-- Keyword test `any(kw in text for kw in kws)`. -/
def kwAny (text : String) (kws : List String) : Bool :=
  kws.any (fun k => strContains text k)

/-- The whole `_basic_analysis_fallback` heuristic report. -/
def basicAnalysisFallback (repos : List ScoredRepo) (skills : List String)
    (_username : String) : AnalysisResult :=
  let skills_match := skills.map (fbSkillEntry repos)
  let total_stars := (repos.map (·.stars)).sum
  let avg_stars : ℚ :=
    if repos.isEmpty then 0 else (total_stars : ℚ) / (repos.length : ℚ)
  let testing_indicators := repos.foldl
    (fun n repo => n +
      (if kwAny (lowerStr repo.description) ["test", "testing", "spec", "unit"] then 1 else 0) +
      (if kwAny (lowerStr repo.name) ["test", "spec"] then 1 else 0)) 0
  let doc_indicators := repos.foldl
    (fun n repo => n +
      (if repo.readme_preview != "" then 1 else 0) +
      (if kwAny (lowerStr repo.description) ["doc", "documentation", "guide", "tutorial"] then 1 else 0)) 0
  let recent_repos := repos.filter (fun r => r.updated_at != "")
  let avg_skill_strength := fbAvgStrength skills_match
  let top2 := String.intercalate ", " (skills.take 2)
  let overall : OverallAssessment :=
    if 4 ≤ avg_skill_strength ∧ 2 ≤ repos.length then
      ⟨"strong_yes", "Strong evidence of " ++ top2 ++ " expertise with multiple relevant projects"⟩
    else if 3 ≤ avg_skill_strength ∧ 1 ≤ repos.length then
      ⟨"yes", "Good evidence of " ++ top2 ++ " skills with relevant projects"⟩
    else if 2 ≤ avg_skill_strength then
      ⟨"maybe", "Some evidence of " ++ top2 ++ " skills but limited project depth"⟩
    else
      ⟨"no", "Insufficient evidence of " ++ top2 ++ " expertise"⟩
  let top_skills := (skills_match.filter (fun e => 3 ≤ e.strength)).map (·.skill)
  let summary := "Active developer with " ++ toString repos.length ++ " relevant repositories"
  let summary :=
    if !top_skills.isEmpty then
      summary ++ " showing expertise in " ++ String.intercalate ", " top_skills
    else summary
  let summary :=
    if 0 < total_stars then
      summary ++ " with " ++ toString total_stars ++ " total stars"
    else summary
  { summary := some summary
    candidate := none
    skills_match := skills_match
    code_quality :=
      { style := if 10 < avg_stars then "Good" else "Adequate"
        readability :=
          if repos.any (fun r => 50 < r.description.length) then "High" else "Medium"
        testing :=
          if (repos.length : ℚ) / 2 < (testing_indicators : ℚ) then "Good" else "Adequate"
        documentation :=
          if (repos.length : ℚ) / 2 < (doc_indicators : ℚ) then "Good" else "Adequate"
        security :=
          if repos.any (fun r => strContains (lowerStr r.description) "security") then "Good"
          else "Adequate" }
    commit_habits :=
      { frequency := if 2 < recent_repos.length then "Regular" else "Occasional"
        message_quality :=
          if repos.any (fun r => 20 < r.description.length) then "Good" else "Adequate"
        collaboration_signals := if 5 < total_stars then "Active" else "Limited" }
    interview_questions :=
      (skills.take 2).map (fun skill =>
        ⟨"Can you walk me through your experience with " ++ skill ++
            " based on your GitHub projects?",
          "Assess practical " ++ skill ++ " experience through real projects",
          "intermediate"⟩) ++
      (if 3 < repos.length then
        [⟨"I see you have multiple repositories. How do you organize and maintain your projects?",
          "Assess project management and organization skills", "intermediate"⟩]
       else [])
    risk_flags :=
      (if avg_stars < 1 ∧ 5 < repos.length then
        [⟨"Low Engagement", "Many repositories but low community engagement", "medium"⟩]
       else []) ++
      (if !(repos.any (fun r => r.readme_preview != "")) then
        [⟨"Poor Documentation", "Lack of README files in repositories", "low"⟩]
       else [])
    overall_assessment := overall }

/-- The summary string attached by `analyze_repositories` to the
`analyze_candidate` result on the primary path. -/
def attachSummary (a : AnalysisResult) (ghd : GithubData) : AnalysisResult :=
  let top_skills := (a.skills_match.filter (fun e => 3 ≤ e.strength)).map (·.skill)
  let s := "Active developer with " ++ toString ghd.repos.length ++ " relevant repositories"
  let s :=
    if !top_skills.isEmpty then
      s ++ " showing expertise in " ++ String.intercalate ", " top_skills
    else s
  let s :=
    if 0 < ghd.total_stars then
      s ++ " with " ++ toString ghd.total_stars ++ " total stars"
    else s
  { a with summary := some s }

/-- The `analyze_repositories` synthesizer.  `tasksFault` models the
try-block of `analyze_repositories` itself raising after
`analyze_candidate` returned (the only way its `except` can trigger,
since `analyze_candidate` catches everything internally); in that case
the tasks-layer fallback `_basic_analysis_fallback` answers. -/
def analyzeRepositoriesSynth (oracle : ModelOracle) (tasksFault : Bool)
    (repos : List ScoredRepo) (skills : List String) (username : String) :
    AnalysisResult :=
  if repos.isEmpty then noMatchAnalysis username
  else if tasksFault then basicAnalysisFallback repos skills username
  else
    attachSummary (analyzeCandidate oracle (mkGithubData repos username) skills username)
      (mkGithubData repos username)

/-! ## Job Orchestrator (`tasks.process_analysis_job`) -/

/-- Database job status (`app/db/models.py` `JobStatus`). -/
inductive DbJobStatus where
  | queued : DbJobStatus
  | running : DbJobStatus
  | completed : DbJobStatus
  | failed : DbJobStatus
deriving Repr, DecidableEq

/-- The mutable columns of one `jobs` row that the orchestrator touches. -/
structure DbJob where
  status : DbJobStatus
  error_code : Option String
  error_message : Option String
deriving Repr, DecidableEq

/-- The Redis keys `job_status:{id}` / `job_result:{id}` / `job_error:{id}`
managed by `JobQueue.update_job_status`. -/
structure RedisJob where
  status : Option String
  result : Option AnalysisReport
  error : Option String
deriving Repr, DecidableEq

/-- `JobQueue.update_job_status`: always writes the status; stores the
result when one is passed; stores the error only when it is truthy
(a non-empty string). -/
def redisUpdate (r : RedisJob) (status : String) (result : Option AnalysisReport)
    (error : Option String) : RedisJob :=
  { status := some status
    result := match result with | some x => some x | none => r.result
    error :=
      match error with
      | some e => if e = "" then r.error else some e
      | none => r.error }

/-- `JobRepository.update_job_status`: sets the status and overwrites the
error columns only for truthy (non-empty) arguments. -/
def dbUpdateStatus (j : DbJob) (st : DbJobStatus) (code msg : Option String) :
    DbJob :=
  { status := st
    error_code :=
      match code with
      | some c => if c = "" then j.error_code else some c
      | none => j.error_code
    error_message :=
      match msg with
      | some m => if m = "" then j.error_message else some m
      | none => j.error_message }

/-- Per-call-site fault switches for the two stores: `true` means that
store call raises.  (`dbGet` covers the success-path `get_job_by_id`;
`dbSetFailed` covers the whole guarded DB update inside the except
handler, whose own exception is caught and only printed.) -/
structure StoreFaults where
  redisRun : Bool
  redisDone : Bool
  redisFail : Bool
  dbGet : Bool
  dbSetCompleted : Bool
  dbArtifact : Bool
  dbSetFailed : Bool
deriving Repr, DecidableEq

/-- All store calls succeed. -/
def noFaults : StoreFaults := ⟨false, false, false, false, false, false, false⟩

/-- The shared state the orchestrator mutates: the durable job row (absent
when `get_job_by_id` finds nothing), the stored artifact report, and the
Redis status cache. -/
structure OrchState where
  db : Option DbJob
  artifact : Option AnalysisReport
  redis : RedisJob
deriving Repr, DecidableEq

/-- What one `process_analysis_job` call did: the final shared state,
whether the call returned normally (`false` = the uncaught Redis write in
the except handler raised out of the call), and whether the Synthesizer
was invoked. -/
structure OrchOutcome where
  state : OrchState
  returned : Bool
  synthInvoked : Bool
deriving Repr, DecidableEq

/-- The `except Exception` handler of `process_analysis_job`: try to mark
the DB job FAILED with `PROCESSING_ERROR` (its own failure is swallowed),
then write the Redis failure status — the one store call whose exception
escapes the orchestrator. -/
def failPath (f : StoreFaults) (st : OrchState) (msg : String)
    (invoked : Bool) : OrchOutcome :=
  let newDb :=
    st.db.map (fun j => dbUpdateStatus j .failed (some "PROCESSING_ERROR") (some msg))
  let st := if f.dbSetFailed then st else { st with db := newDb }
  if f.redisFail then ⟨st, false, invoked⟩
  else ⟨{ st with redis := redisUpdate st.redis "failed" none (some msg) }, true, invoked⟩

/-- The `analysis_report` dict assembled by `process_analysis_job`
(a missing `summary` key would be a `KeyError` inside the outer try). -/
def buildReport (githubUsername : String) (repos : List ScoredRepo)
    (a : AnalysisResult) : Except String AnalysisReport :=
  match a.summary with
  | none => .error "KeyError: summary"
  | some s =>
    .ok { candidate :=
            { github_username := githubUsername
              summary_of_work := s
              notable_repos := (repos.take 3).map (·.full_name) }
          skills_match := a.skills_match
          code_quality := a.code_quality
          commit_habits := a.commit_habits
          interview_questions := a.interview_questions
          risk_flags := a.risk_flags
          overall_assessment := a.overall_assessment }

/-- The `process_analysis_job` orchestrator.  `scorer` is the outcome of
`search_repositories_by_skills` (its exception already wrapped by the
inner `except` as `Failed to fetch GitHub data: ...`), `synth` the
behaviour of `analyze_repositories` on the ranked repositories
(`Except.error` models the claim's "Synthesizer raising" case), and
store exceptions carry the placeholder message `"store error"`. -/
def processAnalysisJob (f : StoreFaults) (scorer : Except String (List ScoredRepo))
    (synth : List ScoredRepo → Except String AnalysisResult)
    (githubUsername : String) (skills : List String) (st0 : OrchState) :
    OrchOutcome :=
  if f.redisRun then failPath f st0 "store error" false
  else
    let st1 := { st0 with redis := redisUpdate st0.redis "running" none none }
    match scorer with
    | .error e => failPath f st1 ("Failed to fetch GitHub data: " ++ e) false
    | .ok repos =>
      if repos.isEmpty then
        failPath f st1
          ("No repositories found matching skills: " ++ String.intercalate ", " skills) false
      else
        match synth repos with
        | .error e => failPath f st1 e true
        | .ok analysis =>
          match buildReport githubUsername repos analysis with
          | .error e => failPath f st1 e true
          | .ok report =>
            if f.dbGet then failPath f st1 "store error" true
            else
              match st1.db with
              | none =>
                if f.redisDone then failPath f st1 "store error" true
                else
                  ⟨{ st1 with redis := redisUpdate st1.redis "completed" (some report) none },
                    true, true⟩
              | some job =>
                if f.dbSetCompleted then failPath f st1 "store error" true
                else
                  let st2 := { st1 with db := some (dbUpdateStatus job .completed none none) }
                  if f.dbArtifact then failPath f st2 "store error" true
                  else
                    let st3 := { st2 with artifact := some report }
                    if f.redisDone then failPath f st3 "store error" true
                    else
                      ⟨{ st3 with redis := redisUpdate st3.redis "completed" (some report) none },
                        true, true⟩

/-! ## Spec-side policy definitions (for refinement comparisons) -/

/-- Modelled from the spec: the four fixed decision thresholds of the
fallback path — average ≥ 4 with ≥ 2 repos gives strong_yes, average ≥ 3
with ≥ 1 repo gives yes, average ≥ 2 gives maybe, otherwise no. -/
def decisionHintPolicy (avg : ℚ) (repoCount : Nat) : String :=
  if 4 ≤ avg ∧ 2 ≤ repoCount then "strong_yes"
  else if 3 ≤ avg ∧ 1 ≤ repoCount then "yes"
  else if 2 ≤ avg then "maybe"
  else "no"

/-- Justification template of the fallback path, selected by the same four
thresholds and naming the top two requested skills. -/
def justificationPolicy (avg : ℚ) (repoCount : Nat) (skills : List String) : String :=
  let top2 := String.intercalate ", " (skills.take 2)
  if 4 ≤ avg ∧ 2 ≤ repoCount then
    "Strong evidence of " ++ top2 ++ " expertise with multiple relevant projects"
  else if 3 ≤ avg ∧ 1 ≤ repoCount then
    "Good evidence of " ++ top2 ++ " skills with relevant projects"
  else if 2 ≤ avg then
    "Some evidence of " ++ top2 ++ " skills but limited project depth"
  else "Insufficient evidence of " ++ top2 ++ " expertise"

/-! ## Scoring lemmas -/

/-- One loop iteration adds exactly the per-skill category sum to the score. -/
theorem scoreStep_fst (repo : RepoInfo) (acc : Nat × List String) (skill : String) :
    (scoreStep repo acc skill).1 = acc.1 + skillScore repo skill := by
  simp only [scoreStep, skillScore]
  split_ifs <;> simp

/-- The scorer's skill loop computes the sum of per-skill contributions. -/
theorem foldl_scoreStep_fst (repo : RepoInfo) (skills : List String)
    (acc : Nat × List String) :
    (skills.foldl (scoreStep repo) acc).1 = acc.1 + (skills.map (skillScore repo)).sum := by
  induction skills generalizing acc with
  | nil => simp
  | cons s rest ih =>
    simp only [List.foldl_cons, List.map_cons, List.sum_cons, ih, scoreStep_fst]
    omega

/-- C1: the scorer's score is the sum over skills of the fixed category
weights (+3 language equality case-insensitively, +2 name substring, +1
description substring, +1 README substring, each category at most once per
skill per repository); in particular a repository matching one skill in
all four categories scores exactly 3+2+1+1 = 7. -/
theorem scorer_score_is_sum_of_category_weights (repo : RepoInfo) (skills : List String) :
    (repoScore repo skills).1 = (skills.map (skillScore repo)).sum ∧
    (∀ r : RepoInfo, ∀ s : String,
      langHit r (lowerStr s) = true → nameHit r (lowerStr s) = true →
      descHit r (lowerStr s) = true → readmeHit r (lowerStr s) = true →
      (repoScore r [s]).1 = 7) := by
  constructor
  · simpa using foldl_scoreStep_fst repo skills (0, [])
  · intro r s h1 h2 h3 h4
    have := foldl_scoreStep_fst r [s] (0, [])
    simp only [repoScore, this, List.map_cons, List.map_nil, List.sum_cons,
      List.sum_nil, skillScore, h1, h2, h3, h4, if_true]
    omega

/-- The round-trip example from the spec: language set contains "Go", name
contains "go-tool", description contains "written in Go", README contains
"Go". -/
def goRepo : RepoInfo :=
  { id := 1, name := "go-tool", full_name := "u/go-tool",
    description := some "written in Go", html_url := "", clone_url := "",
    languages := ["Go"], stars := 0, forks := 0, size := 10,
    updated_at := "2024", created_at := "2023", readme := some "Go stuff" }

/-- Witness for C1: the spec's round-trip repo matches skill "Go" in all
four categories and scores exactly 7. -/
theorem scorer_score_is_sum_of_category_weights_witness :
    langHit goRepo (lowerStr "Go") = true ∧ nameHit goRepo (lowerStr "Go") = true ∧
    descHit goRepo (lowerStr "Go") = true ∧ readmeHit goRepo (lowerStr "Go") = true ∧
    (repoScore goRepo ["Go"]).1 = 7 :=
  ⟨by decide, by decide, by decide, by decide,
   (scorer_score_is_sum_of_category_weights goRepo ["Go"]).2 goRepo "Go"
     (by decide) (by decide) (by decide) (by decide)⟩

/-- A skill matches a repository when at least one of the four scoring
categories fires. -/
def skillHit (repo : RepoInfo) (skill : String) : Bool :=
  langHit repo (lowerStr skill) || nameHit repo (lowerStr skill) ||
  descHit repo (lowerStr skill) || readmeHit repo (lowerStr skill)

/-- Boolean membership agrees with list membership for strings. -/
theorem contains_iff_mem_str {l : List String} {a : String} :
    l.contains a = true ↔ a ∈ l :=
  List.elem_iff

/-- Appending a member leaves `matched_skills` unchanged. -/
theorem addMatched_of_mem {m : List String} {s : String} (h : s ∈ m) :
    addMatched m s = m := by
  simp [addMatched, h]

/-- Appending a non-member appends it. -/
theorem addMatched_of_not_mem {m : List String} {s : String} (h : s ∉ m) :
    addMatched m s = m ++ [s] := by
  simp [addMatched, h]

/-- Re-adding the element just appended changes nothing. -/
theorem addMatched_append_self (m : List String) (s : String) :
    addMatched (m ++ [s]) s = m ++ [s] :=
  addMatched_of_mem (by simp)

/-- A skill's score contribution is positive exactly when a category fires. -/
theorem skillScore_pos_iff (repo : RepoInfo) (s : String) :
    0 < skillScore repo s ↔ skillHit repo s = true := by
  cases h1 : langHit repo (lowerStr s) <;> cases h2 : nameHit repo (lowerStr s) <;>
    cases h3 : descHit repo (lowerStr s) <;> cases h4 : readmeHit repo (lowerStr s) <;>
    simp [skillScore, skillHit, h1, h2, h3, h4]

/-- One loop iteration appends the skill to `matched_skills` exactly when
some category fires, provided the skill is not already present. -/
theorem scoreStep_snd (repo : RepoInfo) (acc : Nat × List String) (skill : String)
    (h : skill ∉ acc.2) :
    (scoreStep repo acc skill).2 =
      if skillHit repo skill then acc.2 ++ [skill] else acc.2 := by
  cases h1 : langHit repo (lowerStr skill) <;>
    cases h2 : nameHit repo (lowerStr skill) <;>
    cases h3 : descHit repo (lowerStr skill) <;>
    cases h4 : readmeHit repo (lowerStr skill) <;>
    simp [scoreStep, skillHit, h1, h2, h3, h4, addMatched_of_not_mem h,
      addMatched_append_self]

/-- The skill loop collects exactly the matching skills, in request order,
when the requested skills are duplicate-free and disjoint from the
accumulator. -/
theorem foldl_scoreStep_snd (repo : RepoInfo) (skills : List String)
    (acc : Nat × List String) (hnd : skills.Nodup)
    (hdisj : ∀ x ∈ skills, x ∉ acc.2) :
    (skills.foldl (scoreStep repo) acc).2 = acc.2 ++ skills.filter (skillHit repo) := by
  induction skills generalizing acc with
  | nil => simp
  | cons a rest ih =>
    have hsnd := scoreStep_snd repo acc a (hdisj a (by simp))
    have hnd' : rest.Nodup := (List.nodup_cons.mp hnd).2
    have hna : a ∉ rest := (List.nodup_cons.mp hnd).1
    simp only [List.foldl_cons]
    rw [ih (scoreStep repo acc a) hnd']
    · rw [hsnd]
      cases hhit : skillHit repo a <;> simp [List.filter_cons, hhit]
    · intro x hx
      rw [hsnd]
      cases hhit : skillHit repo a <;> simp_all
      rintro rfl
      exact hna hx

/-- Sum of mapped naturals is positive exactly when a positive element exists. -/
theorem sum_map_pos_iff {α : Type} (f : α → Nat) (l : List α) :
    0 < (l.map f).sum ↔ ∃ x ∈ l, 0 < f x := by
  induction l with
  | nil => simp
  | cons a t ih =>
    simp only [List.map_cons, List.sum_cons, add_pos_iff, ih, List.mem_cons]
    aesop

/-- With duplicate-free skills, the score is positive exactly when
`matched_skills` is non-empty. -/
theorem repoScore_pos_iff_matched (repo : RepoInfo) (skills : List String)
    (hnd : skills.Nodup) :
    0 < (repoScore repo skills).1 ↔ (repoScore repo skills).2 ≠ [] := by
  have hfst := foldl_scoreStep_fst repo skills (0, [])
  have hsnd := foldl_scoreStep_snd repo skills (0, []) hnd (by simp)
  simp only [repoScore] at *
  rw [hfst, hsnd]
  simp only [Nat.zero_add, List.nil_append]
  rw [sum_map_pos_iff]
  constructor
  · rintro ⟨x, hx, hpos⟩ hnil
    exact List.filter_eq_nil_iff.mp hnil x hx ((skillScore_pos_iff repo x).mp hpos)
  · intro hne
    rcases List.exists_mem_of_ne_nil _ hne with ⟨x, hx⟩
    have hx' := List.mem_filter.mp hx
    exact ⟨x, hx'.1, (skillScore_pos_iff repo x).mpr hx'.2⟩

/-- C10: with a duplicate-free skill list, `matched_skills` is exactly the
subsequence of requested skills with at least one category match (hence
duplicate-free and drawn from the request), the score is positive exactly
when `matched_skills` is non-empty, and every repository in the scorer's
ranked output has a non-empty `matched_skills`. -/
theorem scorer_matched_skills_invariant (repo : RepoInfo) (skills : List String)
    (hnd : skills.Nodup) :
    (repoScore repo skills).2 = skills.filter (skillHit repo) ∧
    (repoScore repo skills).2.Nodup ∧
    (∀ s ∈ (repoScore repo skills).2, s ∈ skills) ∧
    (0 < (repoScore repo skills).1 ↔ (repoScore repo skills).2 ≠ []) ∧
    (∀ repos limit, ∀ r ∈ searchRepositoriesBySkills repos skills limit,
      r.matched_skills ≠ []) := by
  have hchar : (repoScore repo skills).2 = skills.filter (skillHit repo) := by
    simpa using foldl_scoreStep_snd repo skills (0, []) hnd (by simp)
  refine ⟨hchar, ?_, ?_, repoScore_pos_iff_matched repo skills hnd, ?_⟩
  · rw [hchar]; exact hnd.filter _
  · rw [hchar]; intro s hs; exact (List.mem_filter.mp hs).1
  · intro repos limit r hr
    simp only [searchRepositoriesBySkills] at hr
    cases hemp : repos.isEmpty with
    | true => rw [hemp] at hr; simp at hr
    | false =>
      rw [hemp] at hr
      simp only [Bool.false_eq_true, if_false] at hr
      have hr1 := List.take_subset _ _ hr
      have hr2 := List.mem_filter.mp hr1
      have hr3 : r ∈ repos.map (mkScored skills) := by
        exact (List.mem_insertionSort scoreGe).mp hr2.1
      rcases List.mem_map.mp hr3 with ⟨r0, _, rfl⟩
      have hpos : 0 < (repoScore r0 skills).1 := by
        simpa [mkScored] using of_decide_eq_true hr2.2
      have hne := (repoScore_pos_iff_matched r0 skills hnd).mp hpos
      simpa [mkScored] using hne

/-- Witness for C10 at the spec's round-trip repository and skills
["Go", "Rust"]. -/
theorem scorer_matched_skills_invariant_witness :
    (repoScore goRepo ["Go", "Rust"]).2 = ["Go"] ∧
    (0 < (repoScore goRepo ["Go", "Rust"]).1 ↔ (repoScore goRepo ["Go", "Rust"]).2 ≠ []) ∧
    (mkScored ["Go", "Rust"] goRepo).matched_skills ≠ [] := by
  have h := scorer_matched_skills_invariant goRepo ["Go", "Rust"] (by decide)
  refine ⟨?_, h.2.2.2.1, ?_⟩
  · rw [h.1]; decide
  · exact h.2.2.2.2 [goRepo] 5 (mkScored ["Go", "Rust"] goRepo) (by decide)

/-! ## Sorting stability lemmas for the Scorer's ranked output -/

/-- Inserting into the descending order places an element before every
element of equal score, so each equal-score class is preserved. -/
theorem filter_score_orderedInsert (a : ScoredRepo) (l : List ScoredRepo) (n : Nat) :
    (List.orderedInsert scoreGe a l).filter (fun r => r.score == n) =
      if a.score == n then a :: l.filter (fun r => r.score == n)
      else l.filter (fun r => r.score == n) := by
  induction l with
  | nil => simp [List.orderedInsert, List.filter_cons]
  | cons b t ih =>
    simp only [List.orderedInsert]
    by_cases hr : scoreGe a b
    · rw [if_pos hr]
      simp [List.filter_cons]
    · rw [if_neg hr]
      have hlt : a.score < b.score := by
        simp only [scoreGe, not_le] at hr
        exact hr
      by_cases hpa : a.score = n
      · have hpb : (b.score == n) = false := by
          simp only [beq_eq_false_iff_ne, ne_eq]
          omega
        simp [List.filter_cons, hpb, ih, hpa]
      · have hpa' : (a.score == n) = false := by
          simp only [beq_eq_false_iff_ne, ne_eq]
          exact hpa
        simp [List.filter_cons, ih, hpa']

/-- The stable descending sort preserves each equal-score class in its
original order (Python `list.sort` is stable; a stable sort is uniquely
determined by this property together with sortedness). -/
theorem filter_score_insertionSort (l : List ScoredRepo) (n : Nat) :
    (List.insertionSort scoreGe l).filter (fun r => r.score == n) =
      l.filter (fun r => r.score == n) := by
  induction l with
  | nil => rfl
  | cons a t ih =>
    simp only [List.insertionSort]
    rw [filter_score_orderedInsert]
    by_cases hpa : a.score = n
    · simp [List.filter_cons, hpa, ih]
    · have hpa' : (a.score == n) = false := by
        simp only [beq_eq_false_iff_ne, ne_eq]
        exact hpa
      simp [List.filter_cons, hpa', ih]

/-- C2: the scorer's result is the scored repositories sorted descending
by score — stably, preserving original fetch order inside each equal-score
class — with zero-score repositories removed and the list truncated to the
first `limit` entries. -/
theorem scorer_result_sorted_stable_filtered_truncated
    (repos : List RepoInfo) (skills : List String) (limit : Nat) :
    searchRepositoriesBySkills repos skills limit =
      ((List.insertionSort scoreGe (repos.map (mkScored skills))).filter
        (fun r => decide (0 < r.score))).take limit ∧
    List.Sorted scoreGe (List.insertionSort scoreGe (repos.map (mkScored skills))) ∧
    (∀ n : Nat,
      (List.insertionSort scoreGe (repos.map (mkScored skills))).filter
          (fun r => r.score == n) =
        (repos.map (mkScored skills)).filter (fun r => r.score == n)) ∧
    (∀ r ∈ searchRepositoriesBySkills repos skills limit, 0 < r.score) ∧
    (searchRepositoriesBySkills repos skills limit).length ≤ limit := by
  have hpipe : searchRepositoriesBySkills repos skills limit =
      ((List.insertionSort scoreGe (repos.map (mkScored skills))).filter
        (fun r => decide (0 < r.score))).take limit := by
    cases hemp : repos.isEmpty with
    | true =>
      rw [List.isEmpty_iff] at hemp
      simp [searchRepositoriesBySkills, hemp, List.insertionSort]
    | false => simp [searchRepositoriesBySkills, hemp]
  refine ⟨hpipe, List.sorted_insertionSort scoreGe _,
    fun n => filter_score_insertionSort _ n, ?_, ?_⟩
  · intro r hr
    rw [hpipe] at hr
    exact of_decide_eq_true (List.mem_filter.mp (List.take_subset _ _ hr)).2
  · rw [hpipe]
    exact List.length_take_le limit _

/-- Witness for C2 at a two-repository input: the low-score repo sinks, the
zero-score repo disappears, and the members of the output have positive
score. -/
theorem scorer_result_sorted_witness :
    (∀ r ∈ searchRepositoriesBySkills [goRepo] ["Go"] 5, 0 < r.score) ∧
    0 < (mkScored ["Go"] goRepo).score ∧
    (searchRepositoriesBySkills [goRepo] ["Go"] 5).length ≤ 5 := by
  have h := scorer_result_sorted_stable_filtered_truncated [goRepo] ["Go"] 5
  refine ⟨h.2.2.2.1, ?_, h.2.2.2.2⟩
  exact h.2.2.2.1 (mkScored ["Go"] goRepo) (by decide)

/-! ## Pagination bound -/

/-- The pagination loop fetches at most `21 - page` further pages once it
is at `page ≤ 20`. -/
theorem getUserRepositoriesGo_pages_le {α : Type} (host : Nat → List α)
    (perPage : Nat) :
    ∀ n page acc pages, 21 - page ≤ n → page ≤ 20 →
      (getUserRepositoriesGo host perPage page acc pages).2 ≤ pages + (21 - page) := by
  intro n
  induction n with
  | zero => intro page acc pages h1 h2; omega
  | succ n ih =>
    intro page acc pages h1 h2
    rw [getUserRepositoriesGo]
    split
    · simp; omega
    · split
      · simp; omega
      · split
        · simp; omega
        · have := ih (page + 1) (acc ++ host page) (pages + 1) (by omega) (by omega)
          omega

/-- C9: repository listing always terminates (the loop is a total
function) and fetches at most 20 pages regardless of host behaviour;
moreover a first page shorter than the page size stops pagination after
one fetch. -/
theorem pagination_terminates_within_20_pages {α : Type} (host : Nat → List α)
    (perPage : Nat) :
    (getUserRepositoriesPages host perPage).2 ≤ 20 ∧
    ((host 1).length < perPage → (getUserRepositoriesPages host perPage).2 = 1) := by
  constructor
  · have h := getUserRepositoriesGo_pages_le host perPage 20 1 [] 0 (by omega) (by omega)
    simpa [getUserRepositoriesPages] using h
  · intro h
    rw [getUserRepositoriesPages, getUserRepositoriesGo]
    by_cases he : (host 1).isEmpty
    · rw [if_pos he]
    · rw [if_neg he, if_pos h]

/-- Witness for C9: a host that returns no repositories at all stops after
one page. -/
theorem pagination_terminates_within_20_pages_witness :
    ((fun _ : Nat => ([] : List Nat)) 1).length < 100 ∧
    (getUserRepositoriesPages (fun _ : Nat => ([] : List Nat)) 100).2 = 1 :=
  ⟨by decide,
   (pagination_terminates_within_20_pages (fun _ : Nat => ([] : List Nat)) 100).2
     (by decide)⟩

/-! ## Synthesizer guarantees -/

/-- C5: with an empty scored-repository list the Synthesizer returns the
canned no-match report — whose `overall_assessment.decision_hint` is
"no" — for every model-oracle behaviour, i.e. without consulting the
generative model at all. -/
theorem synthesizer_empty_repos_canned_no (oracle : ModelOracle) (tasksFault : Bool)
    (skills : List String) (username : String) :
    analyzeRepositoriesSynth oracle tasksFault [] skills username =
      noMatchAnalysis username ∧
    (noMatchAnalysis username).overall_assessment.decision_hint = "no" :=
  ⟨rfl, rfl⟩

/-- C4: on a non-empty ranked repository list the Synthesizer is a total
function — no failure escapes it.  A model-unavailable or primary-path
failure is answered with the AI client's basic-analysis fallback report, a
failure of the tasks-layer try block is answered with
`_basic_analysis_fallback`, and in every case the returned report carries
all required fields including the attached `summary`. -/
theorem synthesizer_never_raises (oracle : ModelOracle) (tasksFault : Bool)
    (repos : List ScoredRepo) (skills : List String) (username : String)
    (hne : repos ≠ []) :
    (analyzeRepositoriesSynth oracle tasksFault repos skills username).summary.isSome = true ∧
    (tasksFault = true →
      analyzeRepositoriesSynth oracle tasksFault repos skills username =
        basicAnalysisFallback repos skills username) ∧
    (tasksFault = false → (oracle = .unavailable ∨ oracle = .failure) →
      analyzeRepositoriesSynth oracle tasksFault repos skills username =
        attachSummary (generateBasicAnalysis (mkGithubData repos username) skills username)
          (mkGithubData repos username)) := by
  have hemp : repos.isEmpty = false := by
    cases repos with
    | nil => exact absurd rfl hne
    | cons a t => rfl
  refine ⟨?_, ?_, ?_⟩
  · cases tasksFault with
    | true => simp [analyzeRepositoriesSynth, hemp, basicAnalysisFallback]
    | false => simp [analyzeRepositoriesSynth, hemp, attachSummary]
  · intro ht
    simp [analyzeRepositoriesSynth, hemp, ht]
  · intro ht ho
    rcases ho with rfl | rfl <;> simp [analyzeRepositoriesSynth, hemp, ht, analyzeCandidate]

/-- A concrete scored repository used by witnesses and counterexamples. -/
def repoGoApp : ScoredRepo :=
  { id := 1, name := "go-app", full_name := "u/go-app", description := "x",
    html_url := "", clone_url := "", languages := ["Go"], stars := 0,
    forks := 0, size := 5, updated_at := "2024", created_at := "2023",
    score := 3, matched_skills := ["go"], readme_preview := "" }

/-- A second concrete scored repository. -/
def repoGoLib : ScoredRepo :=
  { id := 2, name := "go-lib", full_name := "u/go-lib", description := "x",
    html_url := "", clone_url := "", languages := ["Go"], stars := 0,
    forks := 0, size := 5, updated_at := "2024", created_at := "2023",
    score := 3, matched_skills := ["go"], readme_preview := "" }

/-- Witness for C4: a primary-path failure on a one-repository input
yields the AI client's fallback report with the summary attached. -/
theorem synthesizer_never_raises_witness :
    ([repoGoApp] ≠ []) ∧
    (analyzeRepositoriesSynth .failure false [repoGoApp] ["Go"] "u").summary.isSome = true ∧
    analyzeRepositoriesSynth .failure false [repoGoApp] ["Go"] "u" =
      attachSummary (generateBasicAnalysis (mkGithubData [repoGoApp] "u") ["Go"] "u")
        (mkGithubData [repoGoApp] "u") := by
  have h := synthesizer_never_raises .failure false [repoGoApp] ["Go"] "u" (by decide)
  exact ⟨by decide, h.1, h.2.2 rfl (Or.inr rfl)⟩

/-! ## Substring lemmas -/

/-- A list starts with its own prefix. -/
theorem startsWithL_append : ∀ (n t : List Char), startsWithL (n ++ t) n = true := by
  intro n
  induction n with
  | nil => intro t; simp [startsWithL]
  | cons a m ih => intro t; simp [startsWithL, ih]

/-- A needle is found inside any sandwich around it. -/
theorem containsL_append_mid (n r : List Char) :
    ∀ l : List Char, containsL (l ++ (n ++ r)) n = true := by
  intro l
  induction l with
  | nil =>
    rw [List.nil_append, containsL.eq_def]
    simp [startsWithL_append]
  | cons a t ih =>
    rw [List.cons_append, containsL.eq_def]
    by_cases hs : startsWithL (a :: (t ++ (n ++ r))) n
    · simp [hs]
    · simp [hs, ih]

/-- String concatenation acts on the character lists. -/
theorem str_data_append (a b : String) : (a ++ b).data = a.data ++ b.data := by
  cases a
  cases b
  rfl

/-- A string contains any middle factor of itself. -/
theorem strContains_sandwich (p t s : String) : strContains (p ++ t ++ s) t = true := by
  have hd : (p ++ t ++ s).data = p.data ++ (t.data ++ s.data) := by
    rw [str_data_append, str_data_append, List.append_assoc]
  rw [strContains, hd]
  exact containsL_append_mid t.data s.data p.data

/-- A string contains its own prefix. -/
theorem strContains_self_append (t s : String) : strContains (t ++ s) t = true := by
  have hd : (t ++ s).data = [] ++ (t.data ++ s.data) := by
    rw [str_data_append, List.nil_append]
  rw [strContains, hd]
  exact containsL_append_mid t.data s.data []

/-- Lowercasing distributes over concatenation. -/
theorem lowerStr_append (a b : String) : lowerStr (a ++ b) = lowerStr a ++ lowerStr b := by
  have hd := str_data_append a b
  cases a with
  | mk la =>
    cases b with
    | mk lb =>
      simp only [lowerStr, hd]
      show String.mk ((la ++ lb).map Char.toLower) =
        String.mk (la.map Char.toLower) ++ String.mk (lb.map Char.toLower)
      rw [List.map_append]
      rfl

/-! ## Fallback decision policy -/

/-- C8 (amended): on the tasks-layer fallback path the decision hint and
its justification are exactly the four-threshold policy over the average
skill strength and the repository count, and the justification names the
top two requested skills. -/
theorem fallback_decision_thresholds (repos : List ScoredRepo) (skills : List String)
    (username : String) :
    (basicAnalysisFallback repos skills username).overall_assessment.decision_hint =
      decisionHintPolicy (fbAvgStrength (skills.map (fbSkillEntry repos))) repos.length ∧
    (basicAnalysisFallback repos skills username).overall_assessment.justification =
      justificationPolicy (fbAvgStrength (skills.map (fbSkillEntry repos)))
        repos.length skills ∧
    strContains
      ((basicAnalysisFallback repos skills username).overall_assessment.justification)
      (String.intercalate ", " (skills.take 2)) = true := by
  refine ⟨?_, ?_, ?_⟩
  · simp only [basicAnalysisFallback, decisionHintPolicy]
    split_ifs <;> rfl
  · simp only [basicAnalysisFallback, justificationPolicy]
    split_ifs <;> rfl
  · simp only [basicAnalysisFallback]
    split_ifs <;> exact strContains_sandwich _ _ _

/-- Counterexample for C8 as frozen: on the model-unavailable fallback
path the decision hint is always "maybe", even though the four-threshold
policy demands "strong_yes" for this input (average strength 5 over two
repositories). -/
theorem fallback_decision_thresholds_cex :
    (analyzeRepositoriesSynth .unavailable false [repoGoApp, repoGoLib] ["go"]
        "u").overall_assessment.decision_hint = "maybe" ∧
    decisionHintPolicy (fbAvgStrength (["go"].map (fbSkillEntry [repoGoApp, repoGoLib])))
      ([repoGoApp, repoGoLib] : List ScoredRepo).length = "strong_yes" ∧
    ("maybe" : String) ≠ "strong_yes" := by
  refine ⟨by decide, ?_, by decide⟩
  have h1 : (["go"].map (fbSkillEntry [repoGoApp, repoGoLib])).map (fun e => e.strength) =
      [(5 : Int)] := by decide
  have h2 : (["go"].map (fbSkillEntry [repoGoApp, repoGoLib])).length = 1 := by decide
  have h3 : (["go"].map (fbSkillEntry [repoGoApp, repoGoLib])).isEmpty = false := by decide
  have havg : fbAvgStrength (["go"].map (fbSkillEntry [repoGoApp, repoGoLib])) = 5 := by
    unfold fbAvgStrength
    rw [h1, h2, h3]
    norm_num
  rw [havg]
  norm_num [decisionHintPolicy]

/-! ## skills_match invariants -/

/-- A fallback iteration that does not raise the strength changes nothing. -/
theorem fbStep_eq_of_fst_zero (skill : String) (acc : Nat × List String × List String)
    (repo : ScoredRepo) (h : (fbStep skill acc repo).1 = 0) :
    fbStep skill acc repo = acc := by
  simp only [fbStep] at h ⊢
  split_ifs at h ⊢ <;> simp_all

/-- If the accumulated fallback strength of a skill is zero, the whole
accumulation never fired: evidence and referenced repos stay empty. -/
theorem foldl_fbStep_eq_of_fst_zero (skill : String) :
    ∀ (repos : List ScoredRepo) (acc : Nat × List String × List String),
      (repos.foldl (fbStep skill) acc).1 = 0 → repos.foldl (fbStep skill) acc = acc := by
  intro repos
  induction repos with
  | nil => intro acc _; rfl
  | cons r t ih =>
    intro acc h
    rw [List.foldl_cons] at h ⊢
    have h2 := ih (fbStep skill acc r) h
    rw [h2] at h ⊢
    exact fbStep_eq_of_fst_zero skill acc r h

/-- C3 (amended): the tasks-layer fallback produces exactly one
`skills_match` entry per requested skill in request order, every strength
is clamped into [1,5], and a zero-match skill keeps strength 1 with an
empty evidence list; the primary-path validator guarantees only that every
requested skill occurs in the returned `skills_match`. -/
theorem skills_match_shape (repos : List ScoredRepo) (skills : List String)
    (username : String) :
    ((basicAnalysisFallback repos skills username).skills_match.map (·.skill)) = skills ∧
    (∀ e ∈ (basicAnalysisFallback repos skills username).skills_match,
      1 ≤ e.strength ∧ e.strength ≤ 5) ∧
    (∀ s : String, (fbStats repos s).1 = 0 →
      fbSkillEntry repos s =
        { skill := s, strength := 1, evidence_snippets := [], repos_referenced := [] }) ∧
    (∀ msm : List SkillEntry, ∀ s ∈ skills,
      ∃ e ∈ validateSkillsMatch msm skills, e.skill = s) := by
  refine ⟨?_, ?_, ?_, ?_⟩
  · simp only [basicAnalysisFallback, List.map_map]
    have : ((fun e : SkillEntry => e.skill) ∘ fbSkillEntry repos) = fun s => s := by
      funext s
      simp [fbSkillEntry]
    rw [this]
    simp
  · intro e he
    simp only [basicAnalysisFallback] at he
    rcases List.mem_map.mp he with ⟨s, _, rfl⟩
    simp only [fbSkillEntry]
    constructor <;> omega
  · intro s h
    have hz := foldl_fbStep_eq_of_fst_zero s repos (0, [], []) h
    simp only [fbSkillEntry, fbStats, hz]
    rfl
  · intro msm s hs
    by_cases hc : (msm.map (·.skill)).contains s
    · rcases List.mem_map.mp (contains_iff_mem_str.mp hc) with ⟨e, he, hes⟩
      exact ⟨e, List.mem_append_left _ he, hes⟩
    · have hc' : (msm.map (·.skill)).contains s = false := Bool.eq_false_iff.mpr hc
      have hmem : (⟨s, 1, ["No evidence found"], []⟩ : SkillEntry) ∈
          validateSkillsMatch msm skills := by
        apply List.mem_append_right
        apply List.mem_map_of_mem
        simp only [List.mem_filter]
        have hnm : ∀ x ∈ msm, ¬x.skill = s := by
          intro x hx hxe
          exact hc (contains_iff_mem_str.mpr (hxe ▸ List.mem_map_of_mem _ hx))
        exact ⟨hs, by simpa using hnm⟩
      exact ⟨_, hmem, rfl⟩

/-- A model reply whose `skills_match` carries an out-of-range strength. -/
def strengthNineModel : ModelAnalysis :=
  { candidate := none
    skills_match := some [⟨"Go", 9, [], []⟩]
    code_quality := none
    commit_habits := none
    interview_questions := none
    risk_flags := none
    overall_assessment := none }

/-- A fresh queued orchestrator state with the job row present. -/
def queuedState : OrchState :=
  { db := some ⟨.queued, none, none⟩
    artifact := none
    redis := ⟨some "queued", none, none⟩ }

/-- The real composed Synthesizer, as `process_analysis_job` invokes it. -/
def synthStrengthNine : List ScoredRepo → Except String AnalysisResult :=
  fun repos => .ok (analyzeRepositoriesSynth (.success strengthNineModel) false repos ["Go"] "u")

/-- Counterexample for C3 as frozen: a job completes (DB status COMPLETED)
with a report whose `skills_match` entry was passed through from the model
unvalidated, carrying strength 9 outside [1,5]. -/
theorem skills_match_shape_cex :
    ((processAnalysisJob noFaults (.ok [repoGoApp]) synthStrengthNine "u" ["Go"]
        queuedState).state.db.map (·.status)) = some DbJobStatus.completed ∧
    ((processAnalysisJob noFaults (.ok [repoGoApp]) synthStrengthNine "u" ["Go"]
        queuedState).state.artifact.map (·.skills_match)) =
      some [⟨"Go", 9, [], []⟩] ∧
    ¬((1 : Int) ≤ 9 ∧ (9 : Int) ≤ 5) :=
  ⟨by decide, by decide, by decide⟩

/-- Witness for C3 (amended) at a concrete repository list and skills. -/
theorem skills_match_shape_witness :
    ((basicAnalysisFallback [repoGoApp] ["Go", "Rust"] "u").skills_match.map (·.skill)) =
      ["Go", "Rust"] ∧
    (1 ≤ (fbSkillEntry [repoGoApp] "Go").strength ∧
      (fbSkillEntry [repoGoApp] "Go").strength ≤ 5) ∧
    fbSkillEntry [repoGoApp] "Rust" =
      { skill := "Rust", strength := 1, evidence_snippets := [], repos_referenced := [] } ∧
    (∃ e ∈ validateSkillsMatch [] ["Go", "Rust"], e.skill = "Go") := by
  have h := skills_match_shape [repoGoApp] ["Go", "Rust"] "u"
  refine ⟨h.1, ?_, ?_, ?_⟩
  · refine h.2.1 (fbSkillEntry [repoGoApp] "Go") ?_
    simp [basicAnalysisFallback]
  · exact h.2.2.1 "Rust" (by decide)
  · exact h.2.2.2 [] "Go" (by decide)

/-! ## Orchestrator lemmas -/

/-- A string is empty exactly when its character list is. -/
theorem str_eq_empty_iff (s : String) : s = "" ↔ s.data = [] := by
  constructor
  · intro h
    rw [h]
  · intro h
    cases s with
    | mk d =>
      simp only at h
      rw [h]

/-- Concatenation with a non-empty left factor is non-empty. -/
theorem append_ne_empty_left (s t : String) (h : s ≠ "") : s ++ t ≠ "" := by
  intro hh
  apply h
  rw [str_eq_empty_iff] at hh ⊢
  rw [str_data_append] at hh
  exact (List.append_eq_nil.mp hh).1

/-- With healthy stores, the failure handler marks the present job FAILED
with `PROCESSING_ERROR` and the message, and writes the Redis failure
status. -/
theorem failPath_noFaults (st : OrchState) (msg : String) (inv : Bool) (j : DbJob)
    (hdb : st.db = some j) :
    failPath noFaults st msg inv =
      { state :=
          { st with
            db := some (dbUpdateStatus j .failed (some "PROCESSING_ERROR") (some msg))
            redis := redisUpdate st.redis "failed" none (some msg) }
        returned := true
        synthInvoked := inv } := by
  simp [failPath, noFaults, hdb]

/-- The FAILED row written by the failure handler. -/
theorem dbUpdateStatus_failed_fields (j : DbJob) (msg : String) (hmsg : msg ≠ "") :
    (dbUpdateStatus j .failed (some "PROCESSING_ERROR") (some msg)).status = .failed ∧
    (dbUpdateStatus j .failed (some "PROCESSING_ERROR") (some msg)).error_code =
      some "PROCESSING_ERROR" ∧
    (dbUpdateStatus j .failed (some "PROCESSING_ERROR") (some msg)).error_message =
      some msg := by
  refine ⟨rfl, ?_, ?_⟩
  · simp only [dbUpdateStatus]
    rw [if_neg (by decide : ¬("PROCESSING_ERROR" : String) = "")]
  · simp only [dbUpdateStatus]
    rw [if_neg hmsg]

/-- The conclusions of the amended C6 for one failure-handler invocation. -/
theorem failPath_conclusion (st : OrchState) (msg : String) (inv : Bool) (j : DbJob)
    (hdb : st.db = some j) (hmsg : msg ≠ "") :
    (failPath noFaults st msg inv).returned = true ∧
    ((failPath noFaults st msg inv).state.redis.status = some "completed" ∨
      (failPath noFaults st msg inv).state.redis.status = some "failed") ∧
    (∃ jf, (failPath noFaults st msg inv).state.db = some jf ∧
      (jf.status = .completed ∨
        (jf.status = .failed ∧ jf.error_code = some "PROCESSING_ERROR" ∧
          ∃ m, jf.error_message = some m ∧ m ≠ ""))) := by
  rw [failPath_noFaults st msg inv j hdb]
  have hf := dbUpdateStatus_failed_fields j msg hmsg
  refine ⟨rfl, Or.inr rfl, ?_⟩
  exact ⟨_, rfl, Or.inr ⟨hf.1, hf.2.1, msg, hf.2.2, hmsg⟩⟩

/-- C6 (amended): when the store operations themselves succeed and the
Synthesizer's failure messages are non-empty, every orchestrator run
returns with the DB job in exactly COMPLETED or FAILED (never QUEUED or
RUNNING), a FAILED job carrying error_code "PROCESSING_ERROR" and a
non-empty error_message, and the Redis status terminal as well. -/
theorem job_reaches_terminal_status (scorer : Except String (List ScoredRepo))
    (synth : List ScoredRepo → Except String AnalysisResult)
    (gu : String) (skills : List String) (st0 : OrchState) (j0 : DbJob)
    (hdb : st0.db = some j0)
    (hsynth : ∀ repos e, synth repos = .error e → e ≠ "") :
    (processAnalysisJob noFaults scorer synth gu skills st0).returned = true ∧
    ((processAnalysisJob noFaults scorer synth gu skills st0).state.redis.status =
        some "completed" ∨
      (processAnalysisJob noFaults scorer synth gu skills st0).state.redis.status =
        some "failed") ∧
    (∃ j, (processAnalysisJob noFaults scorer synth gu skills st0).state.db = some j ∧
      (j.status = .completed ∨
        (j.status = .failed ∧ j.error_code = some "PROCESSING_ERROR" ∧
          ∃ m, j.error_message = some m ∧ m ≠ ""))) := by
  have hdb1 : ({ st0 with redis := redisUpdate st0.redis "running" none none }).db = some j0 :=
    hdb
  simp only [processAnalysisJob, noFaults, Bool.false_eq_true, if_false]
  cases scorer with
  | error e =>
    exact failPath_conclusion _ ("Failed to fetch GitHub data: " ++ e) false j0 hdb1
      (append_ne_empty_left "Failed to fetch GitHub data: " e (by decide))
  | ok repos =>
    dsimp only
    cases hemp : repos.isEmpty with
    | true =>
      rw [if_pos rfl]
      exact failPath_conclusion _ _ false j0 hdb1
        (append_ne_empty_left "No repositories found matching skills: "
          (String.intercalate ", " skills) (by decide))
    | false =>
      rw [if_neg Bool.false_ne_true]
      cases hsy : synth repos with
      | error e =>
        dsimp only
        exact failPath_conclusion _ e true j0 hdb1 (hsynth repos e hsy)
      | ok analysis =>
        dsimp only
        cases hsum : analysis.summary with
        | none =>
          simp only [buildReport, hsum]
          exact failPath_conclusion _ "KeyError: summary" true j0 hdb1 (by decide)
        | some s =>
          simp [buildReport, hsum, hdb, hdb1, dbUpdateStatus, redisUpdate]

/-- Counterexample for C6 as frozen: if the durable store's FAILED update
itself raises (a store behaviour the claim quantifies over), the
orchestrator still returns but the DB job is left QUEUED — neither
COMPLETED nor FAILED. -/
theorem job_reaches_terminal_status_cex :
    (processAnalysisJob ⟨false, false, false, false, false, false, true⟩
        (.error "boom") (fun _ => .error "x") "u" ["Go"] queuedState).returned = true ∧
    (processAnalysisJob ⟨false, false, false, false, false, false, true⟩
        (.error "boom") (fun _ => .error "x") "u" ["Go"] queuedState).state.db =
      some ⟨.queued, none, none⟩ ∧
    ¬(DbJobStatus.queued = .completed ∨ DbJobStatus.queued = .failed) :=
  ⟨by decide, by decide, by decide⟩

/-- Witness for C6 (amended): a healthy run over one repository with a
raising Synthesizer still returns with a terminal, fully annotated job. -/
theorem job_reaches_terminal_status_witness :
    (processAnalysisJob noFaults (.ok [repoGoApp]) (fun _ => .error "synth boom") "u"
        ["Go"] queuedState).returned = true ∧
    (∃ j, (processAnalysisJob noFaults (.ok [repoGoApp]) (fun _ => .error "synth boom") "u"
        ["Go"] queuedState).state.db = some j ∧
      (j.status = .completed ∨
        (j.status = .failed ∧ j.error_code = some "PROCESSING_ERROR" ∧
          ∃ m, j.error_message = some m ∧ m ≠ ""))) := by
  have h := job_reaches_terminal_status (.ok [repoGoApp]) (fun _ => .error "synth boom")
    "u" ["Go"] queuedState ⟨.queued, none, none⟩ rfl
    (by intro repos e he; cases he; decide)
  exact ⟨h.1, h.2.2⟩

/-- String concatenation is associative. -/
theorem str_append_assoc (a b c : String) : (a ++ b) ++ c = a ++ (b ++ c) := by
  cases a with
  | mk la =>
    cases b with
    | mk lb =>
      cases c with
      | mk lc =>
        show String.mk ((la ++ lb) ++ lc) = String.mk (la ++ (lb ++ lc))
        rw [List.append_assoc]

/-- The failure message raised by `process_analysis_job` when the scorer
returns no repositories. -/
def noReposMsg (skills : List String) : String :=
  "No repositories found matching skills: " ++ String.intercalate ", " skills

/-- C7: when the Scorer returns an empty ranked list and the stores are
healthy, the orchestrator fails the job (status FAILED, not COMPLETED)
with the message "No repositories found matching skills: " followed by the
comma-joined requested skills — which case-insensitively mentions the
spec's phrase — and the Synthesizer is never invoked (the outcome is
independent of its behaviour). -/
theorem empty_scorer_result_fails_job
    (synth : List ScoredRepo → Except String AnalysisResult)
    (gu : String) (skills : List String) (st0 : OrchState) (j0 : DbJob)
    (hdb : st0.db = some j0) :
    (processAnalysisJob noFaults (.ok []) synth gu skills st0).returned = true ∧
    (processAnalysisJob noFaults (.ok []) synth gu skills st0).synthInvoked = false ∧
    ((processAnalysisJob noFaults (.ok []) synth gu skills st0).state.db.map (·.status)) =
      some DbJobStatus.failed ∧
    ((processAnalysisJob noFaults (.ok []) synth gu skills st0).state.db.bind
        (·.error_message)) = some (noReposMsg skills) ∧
    strContains (lowerStr (noReposMsg skills)) "no repositories found matching skills" =
      true ∧
    (∀ synth2 : List ScoredRepo → Except String AnalysisResult,
      processAnalysisJob noFaults (.ok []) synth2 gu skills st0 =
        processAnalysisJob noFaults (.ok []) synth gu skills st0) := by
  have hdb1 : ({ st0 with redis := redisUpdate st0.redis "running" none none }).db = some j0 :=
    hdb
  have hm : noReposMsg skills ≠ "" :=
    append_ne_empty_left "No repositories found matching skills: "
      (String.intercalate ", " skills) (by decide)
  have hrun : processAnalysisJob noFaults (.ok []) synth gu skills st0 =
      failPath noFaults { st0 with redis := redisUpdate st0.redis "running" none none }
        (noReposMsg skills) false := rfl
  refine ⟨?_, ?_, ?_, ?_, ?_, fun synth2 => rfl⟩
  · rw [hrun, failPath_noFaults _ _ _ j0 hdb1]
  · rw [hrun, failPath_noFaults _ _ _ j0 hdb1]
  · rw [hrun, failPath_noFaults _ _ _ j0 hdb1]
    rfl
  · rw [hrun, failPath_noFaults _ _ _ j0 hdb1]
    simp only [Option.bind_eq_bind, Option.some_bind, dbUpdateStatus]
    rw [if_neg hm]
  · have hsplit : lowerStr (noReposMsg skills) =
        "no repositories found matching skills" ++
          (": " ++ lowerStr (String.intercalate ", " skills)) := by
      rw [noReposMsg, lowerStr_append]
      have h1 : lowerStr "No repositories found matching skills: " =
          "no repositories found matching skills" ++ ": " := by decide
      rw [h1, str_append_assoc]
    rw [hsplit]
    exact strContains_self_append _ _

/-- Witness for C7 at the spec's end-to-end example: username "alice",
skills ["Python", "Go"], zero repositories. -/
theorem empty_scorer_result_fails_job_witness :
    queuedState.db = some ⟨.queued, none, none⟩ ∧
    ((processAnalysisJob noFaults (.ok []) (fun _ => .error "x") "alice" ["Python", "Go"]
        queuedState).state.db.bind (·.error_message)) =
      some "No repositories found matching skills: Python, Go" ∧
    (processAnalysisJob noFaults (.ok []) (fun _ => .error "x") "alice" ["Python", "Go"]
        queuedState).synthInvoked = false := by
  have h := empty_scorer_result_fails_job (fun _ => .error "x") "alice" ["Python", "Go"]
    queuedState ⟨.queued, none, none⟩ rfl
  refine ⟨rfl, ?_, h.2.1⟩
  rw [h.2.2.2.1]
  decide
